import Mathlib

/-!
Shallow embedding of the persona state engine and response-interpretation
pipeline of `src/DNA.py` (classes `Persona` and `VeilPersonalityCore`),
together with theorems settling the specification claims about it.

Modelling conventions:
* Python float arithmetic is modelled exactly over `ℚ`.
* Python dicts with string keys are insertion-ordered association lists.
* Python string operations used by the parser (`find`, `strip`, `split`,
  `count`, `upper`, slicing) are re-implemented structurally over `List Char`.
* Console printing is not modelled, except that the `[SYSTEM ERROR] ...
  not recognized.` log lines of the update operations are surfaced as an
  explicit error value, and wall-clock timestamps are abstracted as `Nat`
  parameters.
-/

namespace DNA

/-- A Python dict with string keys and numeric values, as an
insertion-ordered association list. -/
abbrev Dict := List (String × ℚ)

/-- Dict lookup `d[key]`; `none` models a missing key. -/
def dictGet : Dict → String → Option ℚ
  | [], _ => none
  | (k, v) :: rest, key => if k = key then some v else dictGet rest key

/-- Dict assignment `d[key] = val`: replaces the value of an existing key in
place, appends a fresh binding otherwise (Python dict assignment). -/
def dictSet : Dict → String → ℚ → Dict
  | [], key, val => [(key, val)]
  | (k, v) :: rest, key, val =>
      if k = key then (key, val) :: rest else (k, v) :: dictSet rest key val

/-- The key set of a dict, in insertion order. -/
def dictKeys (d : Dict) : List String := d.map Prod.fst

/-- Python key-membership test `key in d`. -/
def dictContains (d : Dict) (key : String) : Bool := (dictGet d key).isSome

/-- The clamping pattern `max(lower, min(upper, value))` used by every
update operation in the source. -/
def clamp (lo hi x : ℚ) : ℚ := max lo (min hi x)

/-- The `Persona` data model of `DNA.py`: identity strings, the `traits`
dict, the `player_relationship_score`, and the `fleeting_state` dict. -/
structure Persona where
  name : String
  faction : String
  core_goal : String
  moral_code : String
  traits : Dict
  player_relationship_score : ℚ
  fleeting_state : Dict

/-- The constructor `Persona.__init__`: fixed default traits and fleeting
state, relationship score `0.0`. -/
def mkPersona (name faction core_goal moral_code : String) : Persona :=
  { name := name, faction := faction, core_goal := core_goal,
    moral_code := moral_code,
    traits := [("loyalty", 0.5), ("ambition", 0.8), ("fear", 0.2),
               ("cynicism", 0.3), ("moral_alignment", 0.5)],
    player_relationship_score := 0,
    fleeting_state := [("anger", 0), ("anxiety", 0), ("confidence", 0)] }

/-- The fixed key set of `traits`, in construction order. -/
def traitKeys : List String :=
  ["loyalty", "ambition", "fear", "cynicism", "moral_alignment"]

/-- The fixed key set of `fleeting_state`, in construction order. -/
def fleetingKeys : List String := ["anger", "anxiety", "confidence"]

/-- Error taxonomy of the update operations.  The source signals these
cases by printing a `[SYSTEM ERROR] ... not recognized.` line and leaving
the state unchanged; that log line is modelled as this returned value. -/
inductive UpdateError where
  | unknownTraitError
  | unknownFleetingStateError
deriving DecidableEq

/-- The method `update_trait`: if the trait name is a key of `traits`, add
the delta and clamp to `[0, 1]`; otherwise log an error and change
nothing.  The source's membership test plus read `traits[trait_name]` is
the single lookup match here. -/
def update_trait (p : Persona) (trait_name : String) (value_change : ℚ) :
    Persona × Option UpdateError :=
  match dictGet p.traits trait_name with
  | some current_val =>
      ({ p with traits :=
          dictSet p.traits trait_name (clamp 0 1 (current_val + value_change)) },
       none)
  | none => (p, some UpdateError.unknownTraitError)

/-- The method `update_fleeting_state`: an absolute set, clamped to
`[0, 1]`, guarded by key membership. -/
def update_fleeting_state (p : Persona) (state_name : String) (value : ℚ) :
    Persona × Option UpdateError :=
  if dictContains p.fleeting_state state_name then
    ({ p with fleeting_state :=
        dictSet p.fleeting_state state_name (clamp 0 1 value) },
     none)
  else (p, some UpdateError.unknownFleetingStateError)

/-- The method `decay_fleeting_state`: every entry with value `> 0` is
replaced by `max(0.0, value - decay_rate)`; entries at `0` (or below) are
left untouched. -/
def decay_fleeting_state (p : Persona) (decay_rate : ℚ) : Persona :=
  { p with fleeting_state :=
      (p.fleeting_state.map
        (fun kv => if kv.2 > 0 then (kv.1, max 0 (kv.2 - decay_rate)) else kv)) }

/-- The method `update_moral_alignment`: unconditional clamped delta on
`traits["moral_alignment"]`.  The `none` branch models the Python
`KeyError` path of the unguarded read, unreachable from any constructed
persona. -/
def update_moral_alignment (p : Persona) (change : ℚ) : Persona :=
  match dictGet p.traits ("moral_alignment") with
  | some current_moral =>
      { p with traits :=
          dictSet p.traits ("moral_alignment") (clamp 0 1 (current_moral + change)) }
  | none => p

/-- The method `update_relationship`: clamp the relationship score to
`[-1, 1]`, and on a strictly negative delta additionally fire the moral
drift, `update_trait("cynicism", |delta| * 0.1)` followed by
`update_moral_alignment(|delta| * 0.05)`, both using the pre-update
magnitude of the delta. -/
def update_relationship (p : Persona) (change : ℚ) : Persona :=
  let new_score := clamp (-1) 1 (p.player_relationship_score + change)
  let p1 := { p with player_relationship_score := new_score }
  if change < 0 then
    update_moral_alignment
      (update_trait p1 ("cynicism") (|change| * 0.1)).1 (|change| * 0.05)
  else p1

/-- One update operation of the state-update API, with its arguments. -/
inductive UpdateOp where
  | trait (name : String) (delta : ℚ)
  | fleeting (name : String) (value : ℚ)
  | decay (rate : ℚ)
  | moral (delta : ℚ)
  | relationship (delta : ℚ)

/-- Apply one update operation to a persona (discarding the logged error
of a rejected name, as the source does). -/
def applyOp (p : Persona) : UpdateOp → Persona
  | UpdateOp.trait n d => (update_trait p n d).1
  | UpdateOp.fleeting n v => (update_fleeting_state p n v).1
  | UpdateOp.decay r => decay_fleeting_state p r
  | UpdateOp.moral d => update_moral_alignment p d
  | UpdateOp.relationship d => update_relationship p d

/-- Apply a sequence of update operations, oldest first. -/
def applyOps (p : Persona) (ops : List UpdateOp) : Persona := ops.foldl applyOp p

/-! Association-list lemmas. -/

theorem dictGet_mem {d : Dict} {k : String} {v : ℚ} (h : dictGet d k = some v) :
    (k, v) ∈ d := by
  induction d with
  | nil => simp [dictGet] at h
  | cons kv rest ih =>
      obtain ⟨k', v'⟩ := kv
      by_cases hk : k' = k
      · subst hk
        simp [dictGet] at h
        simp [h]
      · simp [dictGet, hk] at h
        exact List.mem_cons_of_mem _ (ih h)

theorem mem_dictKeys_of_get {d : Dict} {k : String} {v : ℚ}
    (h : dictGet d k = some v) : k ∈ dictKeys d :=
  List.mem_map_of_mem Prod.fst (dictGet_mem h)

theorem dictGet_eq_none {d : Dict} {k : String} :
    dictGet d k = none ↔ k ∉ dictKeys d := by
  induction d with
  | nil => simp [dictGet, dictKeys]
  | cons kv rest ih =>
      obtain ⟨k', v'⟩ := kv
      by_cases hk : k' = k
      · subst hk; simp [dictGet, dictKeys]
      · simp [dictGet, dictKeys, hk, ih]
        intro h
        exact fun he => hk he.symm

theorem dictKeys_dictSet {d : Dict} {k : String} (v : ℚ)
    (h : k ∈ dictKeys d) : dictKeys (dictSet d k v) = dictKeys d := by
  induction d with
  | nil => simp [dictKeys] at h
  | cons kv rest ih =>
      obtain ⟨k', v'⟩ := kv
      by_cases hk : k' = k
      · subst hk; simp [dictSet, dictKeys]
      · have hmem : k ∈ dictKeys rest := by
          rcases (by simpa [dictKeys] using h) with h1 | h1
          · exact absurd h1.symm hk
          · simpa [dictKeys] using h1
        have hrec := ih hmem
        simp [dictSet, hk, dictKeys] at hrec ⊢
        exact hrec

theorem mem_dictSet {d : Dict} {k : String} {v : ℚ} {kv : String × ℚ}
    (h : kv ∈ dictSet d k v) : kv = (k, v) ∨ kv ∈ d := by
  induction d with
  | nil => simpa [dictSet] using h
  | cons kv' rest ih =>
      obtain ⟨k', v'⟩ := kv'
      by_cases hk : k' = k
      · subst hk
        rcases (by simpa [dictSet] using h) with h1 | h1
        · exact Or.inl h1
        · exact Or.inr (List.mem_cons_of_mem _ h1)
      · rcases (by simpa [dictSet, hk] using h) with h1 | h1
        · exact Or.inr (by simp [h1])
        · rcases ih h1 with h2 | h2
          · exact Or.inl h2
          · exact Or.inr (List.mem_cons_of_mem _ h2)

theorem dictGet_dictSet_self {d : Dict} {k : String} {w : ℚ} (v : ℚ)
    (h : dictGet d k = some w) : dictGet (dictSet d k v) k = some v := by
  induction d with
  | nil => simp [dictGet] at h
  | cons kv rest ih =>
      obtain ⟨k', v'⟩ := kv
      by_cases hk : k' = k
      · subst hk; simp [dictSet, dictGet]
      · simp [dictGet, hk] at h
        simp [dictSet, dictGet, hk, ih h]

theorem dictGet_dictSet_ne {d : Dict} {k k' : String} (v : ℚ) (h : k ≠ k') :
    dictGet (dictSet d k v) k' = dictGet d k' := by
  induction d with
  | nil => simp [dictSet, dictGet, h]
  | cons kv rest ih =>
      obtain ⟨k0, v0⟩ := kv
      by_cases hk : k0 = k
      · subst hk; simp [dictSet, dictGet, h]
      · simp [dictSet, dictGet, hk, ih]

theorem dictGet_map_decay (l : Dict) (r : ℚ) (k : String) :
    dictGet (l.map (fun kv => if kv.2 > 0 then (kv.1, max 0 (kv.2 - r)) else kv)) k
      = (dictGet l k).map (fun v => if v > 0 then max 0 (v - r) else v) := by
  induction l with
  | nil => simp [dictGet]
  | cons kv rest ih =>
      obtain ⟨k', v⟩ := kv
      dsimp only [List.map_cons]
      by_cases hp : v > 0
      · rw [if_pos hp]
        by_cases hk : k' = k
        · subst hk; simp [dictGet, hp]
        · simp [dictGet, hk, ih]
      · rw [if_neg hp]
        by_cases hk : k' = k
        · subst hk; simp [dictGet, hp]
        · simp [dictGet, hk, ih]

/-- Decay acts pointwise on the fleeting-state dict. -/
theorem dictGet_decay (p : Persona) (r : ℚ) (k : String) :
    dictGet (decay_fleeting_state p r).fleeting_state k
      = (dictGet p.fleeting_state k).map (fun v => if v > 0 then max 0 (v - r) else v) :=
  dictGet_map_decay p.fleeting_state r k

/-! Clamping lemmas. -/

theorem le_clamp (lo hi x : ℚ) : lo ≤ clamp lo hi x := le_max_left _ _

theorem clamp_le {lo hi : ℚ} (x : ℚ) (h : lo ≤ hi) : clamp lo hi x ≤ hi :=
  max_le h (min_le_left _ _)

/-- The clamp invariant of the data model: the trait and fleeting-state
dicts keep exactly their construction-time key sets, every trait and
fleeting-state value lies in `[0, 1]`, and the relationship score lies in
`[-1, 1]`. -/
def ClampInv (p : Persona) : Prop :=
  dictKeys p.traits = traitKeys ∧
  dictKeys p.fleeting_state = fleetingKeys ∧
  (∀ kv ∈ p.traits, 0 ≤ kv.2 ∧ kv.2 ≤ 1) ∧
  (∀ kv ∈ p.fleeting_state, 0 ≤ kv.2 ∧ kv.2 ≤ 1) ∧
  -1 ≤ p.player_relationship_score ∧ p.player_relationship_score ≤ 1

theorem clampInv_update_trait {p : Persona} (h : ClampInv p)
    (n : String) (d : ℚ) : ClampInv (update_trait p n d).1 := by
  obtain ⟨hk, hk2, hv, hv2, hr, hr2⟩ := h
  unfold update_trait
  cases hg : dictGet p.traits n with
  | none => exact ⟨hk, hk2, hv, hv2, hr, hr2⟩
  | some cur =>
      refine ⟨?_, hk2, ?_, hv2, hr, hr2⟩
      · simpa [hk] using
          dictKeys_dictSet (d := p.traits) (clamp 0 1 (cur + d)) (mem_dictKeys_of_get hg)
      · intro kv hkv
        rcases mem_dictSet hkv with h1 | h1
        · subst h1
          exact ⟨le_clamp _ _ _, clamp_le _ (by norm_num)⟩
        · exact hv kv h1

theorem clampInv_update_fleeting {p : Persona} (h : ClampInv p)
    (n : String) (v : ℚ) : ClampInv (update_fleeting_state p n v).1 := by
  obtain ⟨hk, hk2, hv, hv2, hr, hr2⟩ := h
  unfold update_fleeting_state
  by_cases hc : dictContains p.fleeting_state n
  · simp only [hc, if_true]
    cases hg : dictGet p.fleeting_state n with
    | none => simp [dictContains, hg] at hc
    | some cur =>
        refine ⟨hk, ?_, hv, ?_, hr, hr2⟩
        · simpa [hk2] using
            dictKeys_dictSet (d := p.fleeting_state) (clamp 0 1 v) (mem_dictKeys_of_get hg)
        · intro kv hkv
          rcases mem_dictSet hkv with h1 | h1
          · subst h1
            exact ⟨le_clamp _ _ _, clamp_le _ (by norm_num)⟩
          · exact hv2 kv h1
  · simp only [hc, if_false]
    exact ⟨hk, hk2, hv, hv2, hr, hr2⟩

theorem clampInv_update_moral {p : Persona} (h : ClampInv p)
    (d : ℚ) : ClampInv (update_moral_alignment p d) := by
  obtain ⟨hk, hk2, hv, hv2, hr, hr2⟩ := h
  unfold update_moral_alignment
  cases hg : dictGet p.traits ("moral_alignment") with
  | none => exact ⟨hk, hk2, hv, hv2, hr, hr2⟩
  | some cur =>
      refine ⟨?_, hk2, ?_, hv2, hr, hr2⟩
      · simpa [hk] using
          dictKeys_dictSet (d := p.traits) (clamp 0 1 (cur + d)) (mem_dictKeys_of_get hg)
      · intro kv hkv
        rcases mem_dictSet hkv with h1 | h1
        · subst h1
          exact ⟨le_clamp _ _ _, clamp_le _ (by norm_num)⟩
        · exact hv kv h1

theorem clampInv_decay {p : Persona} (h : ClampInv p)
    {r : ℚ} (hr : 0 ≤ r) : ClampInv (decay_fleeting_state p r) := by
  obtain ⟨hk, hk2, hv, hv2, hr1, hr2⟩ := h
  unfold decay_fleeting_state
  refine ⟨hk, ?_, hv, ?_, hr1, hr2⟩
  · simp only [dictKeys, List.map_map]
    rw [show dictKeys p.fleeting_state =
          p.fleeting_state.map Prod.fst from rfl] at hk2
    rw [← hk2]
    apply List.map_congr_left
    intro kv _
    by_cases hkv : kv.2 > 0 <;> simp [hkv]
  · intro kv hkv
    rcases List.mem_map.mp hkv with ⟨kv0, hkv0, hmap⟩
    by_cases hpos : kv0.2 > 0
    · simp only [hpos, if_true] at hmap
      subst hmap
      refine ⟨le_max_left _ _, ?_⟩
      have h1 := (hv2 kv0 hkv0).2
      exact max_le (by norm_num) (by linarith)
    · simp only [hpos, if_false] at hmap
      subst hmap
      exact hv2 kv0 hkv0

theorem clampInv_update_relationship {p : Persona} (h : ClampInv p)
    (d : ℚ) : ClampInv (update_relationship p d) := by
  obtain ⟨hk, hk2, hv, hv2, _, _⟩ := h
  unfold update_relationship
  have h1 : ClampInv
      { p with player_relationship_score :=
          clamp (-1) 1 (p.player_relationship_score + d) } :=
    ⟨hk, hk2, hv, hv2, le_clamp _ _ _, clamp_le _ (by norm_num)⟩
  by_cases hd : d < 0
  · simp only [hd, if_true]
    exact clampInv_update_moral (clampInv_update_trait h1 _ _) _
  · simp only [hd, if_false]
    exact h1

/-- Restriction on an operation's arguments: decay calls use a
non-negative rate; all other operations are unrestricted. -/
def decayRateNonneg : UpdateOp → Prop
  | UpdateOp.decay r => 0 ≤ r
  | _ => True

theorem clampInv_applyOp {p : Persona} (h : ClampInv p)
    {op : UpdateOp} (hop : decayRateNonneg op) : ClampInv (applyOp p op) := by
  cases op with
  | trait n d => exact clampInv_update_trait h n d
  | fleeting n v => exact clampInv_update_fleeting h n v
  | decay r => exact clampInv_decay h hop
  | moral d => exact clampInv_update_moral h d
  | relationship d => exact clampInv_update_relationship h d

theorem clampInv_applyOps {p : Persona} (h : ClampInv p)
    {ops : List UpdateOp} (hops : ∀ op ∈ ops, decayRateNonneg op) :
    ClampInv (applyOps p ops) := by
  induction ops generalizing p with
  | nil => exact h
  | cons op rest ih =>
      exact ih (clampInv_applyOp h (hops op (by simp)))
        (fun o ho => hops o (List.mem_cons_of_mem _ ho))

theorem clampInv_mkPersona (name faction core_goal moral_code : String) :
    ClampInv (mkPersona name faction core_goal moral_code) := by
  refine ⟨rfl, rfl, ?_, ?_, by norm_num [mkPersona], by norm_num [mkPersona]⟩
  · intro kv hkv
    rcases (by simpa [mkPersona] using hkv) with h | h | h | h | h <;>
      · subst h; norm_num
  · intro kv hkv
    rcases (by simpa [mkPersona] using hkv) with h | h | h <;>
      · subst h; norm_num

/-- C1 (counterexample): the claim as stated quantifies over arbitrary
arguments of the update operations, but a `decay_fleeting_state` call with
a negative rate pushes a positive fleeting-state value above `1.0`: after
`update_fleeting_state("anger", 0.5)` followed by
`decay_fleeting_state(-0.6)`, the `anger` entry is `1.1`. -/
theorem C1_counterexample :
    dictGet (applyOps (mkPersona ("Silas") ("S") ("G") ("M"))
        [UpdateOp.fleeting ("anger") 0.5, UpdateOp.decay (-0.6)]).fleeting_state
        ("anger") = some 1.1
    ∧ ¬ ((1.1 : ℚ) ≤ 1) := by
  constructor
  · have h1 : applyOps (mkPersona ("Silas") ("S") ("G") ("M"))
        [UpdateOp.fleeting ("anger") 0.5, UpdateOp.decay (-0.6)]
        = decay_fleeting_state
            (update_fleeting_state (mkPersona ("Silas") ("S") ("G") ("M"))
              ("anger") 0.5).1 (-0.6) := rfl
    rw [h1, dictGet_decay]
    have hc : clamp 0 1 (0.5 : ℚ) = 0.5 := by
      unfold clamp
      rw [min_eq_right (by norm_num : (0.5 : ℚ) ≤ 1),
          max_eq_right (by norm_num : (0 : ℚ) ≤ 0.5)]
    have h2 : dictGet (update_fleeting_state (mkPersona ("Silas") ("S") ("G") ("M"))
        ("anger") 0.5).1.fleeting_state ("anger") = some 0.5 := by
      rw [show dictGet (update_fleeting_state (mkPersona ("Silas") ("S") ("G") ("M"))
            ("anger") 0.5).1.fleeting_state ("anger") = some (clamp 0 1 0.5) from rfl, hc]
    rw [h2]
    show some (if (0.5 : ℚ) > 0 then max 0 (0.5 - (-0.6)) else 0.5) = some 1.1
    rw [if_pos (by norm_num : ((0.5 : ℚ) > 0)),
        max_eq_right (by norm_num : (0 : ℚ) ≤ 0.5 - (-0.6))]
    norm_num
  · norm_num

/-- C1 (amended): for every sequence of update operations with arbitrary
name and delta/value arguments, in which every `decay_fleeting_state` call
uses a non-negative rate, applied to a freshly constructed `Persona`:
every value in `traits` and in `fleeting_state` lies in `[0, 1]`, the
`player_relationship_score` lies in `[-1, 1]`, and the key sets of
`traits` and `fleeting_state` never grow or shrink. -/
theorem C1_theorem (name faction core_goal moral_code : String)
    (ops : List UpdateOp) (hops : ∀ op ∈ ops, decayRateNonneg op) :
    ClampInv (applyOps (mkPersona name faction core_goal moral_code) ops) :=
  clampInv_applyOps (clampInv_mkPersona name faction core_goal moral_code) hops

/-- C1 (witness): the amended theorem applied to the concrete operation
sequence consisting of a single decay with rate `0.15`. -/
theorem C1_witness :
    decayRateNonneg (UpdateOp.decay 0.15) ∧
    ClampInv (applyOps (mkPersona ("Silas") ("S") ("G") ("M"))
      [UpdateOp.decay 0.15]) := by
  refine ⟨by norm_num [decayRateNonneg], C1_theorem _ _ _ _ _ ?_⟩
  intro op hop
  rcases (by simpa using hop) with h
  subst h
  norm_num [decayRateNonneg]

/-! Memory: the short-term / long-term ledger of `VeilPersonalityCore`. -/

/-- One memory event, as built by `add_to_memory` (`time.time()` is
abstracted as a `Nat` timestamp parameter). -/
structure MemoryEntry where
  timestamp : Nat
  source : String
  event : String
deriving DecidableEq

/-- The mutable state of `VeilPersonalityCore`: the persona plus the two
memory lists.  The API key and URL fields are host configuration for the
external collaborator and are not modelled. -/
structure CoreState where
  persona : Persona
  short_term_memory : List MemoryEntry
  long_term_memory : List MemoryEntry

/-- The capacity `self.short_term_limit = 15`. -/
def short_term_limit : Nat := 15

/-- The constructor `VeilPersonalityCore.__init__`: empty memories. -/
def mkCore (p : Persona) : CoreState :=
  { persona := p, short_term_memory := [], long_term_memory := [] }

/-- The method `add_to_memory`: append the new entry to short-term memory;
if the length then exceeds the limit, pop the oldest entry (index 0) and
append it to long-term memory.  The `[]` match arm is unreachable, as the
scrutinee ends in the appended entry. -/
def add_to_memory (s : CoreState) (source event : String) (timestamp : Nat) :
    CoreState :=
  if (s.short_term_memory ++ [MemoryEntry.mk timestamp source event]).length
      > short_term_limit then
    match s.short_term_memory ++ [MemoryEntry.mk timestamp source event] with
    | [] => s
    | oldest :: rest =>
        { s with short_term_memory := rest,
                 long_term_memory := s.long_term_memory ++ [oldest] }
  else
    { s with short_term_memory :=
        s.short_term_memory ++ [MemoryEntry.mk timestamp source event] }

/-- One `record` call: source, event, and abstracted timestamp. -/
abbrev RecordCall := String × String × Nat

/-- The entry a record call constructs. -/
def entryOf (c : RecordCall) : MemoryEntry :=
  { timestamp := c.2.2, source := c.1, event := c.2.1 }

/-- Apply a sequence of record calls, oldest first. -/
def applyRecords (s : CoreState) (calls : List RecordCall) : CoreState :=
  calls.foldl (fun st c => add_to_memory st c.1 c.2.1 c.2.2) s

theorem add_to_memory_eq_small (s : CoreState) (source event : String) (t : Nat)
    (h : s.short_term_memory.length < short_term_limit) :
    add_to_memory s source event t
      = { s with short_term_memory :=
            s.short_term_memory ++ [MemoryEntry.mk t source event] } := by
  unfold add_to_memory
  rw [if_neg]
  simp only [List.length_append, List.length_cons, List.length_nil]
  omega

theorem add_to_memory_eq_evict (s : CoreState) {a : MemoryEntry}
    {rest : List MemoryEntry} (hst : s.short_term_memory = a :: rest)
    (h : short_term_limit ≤ s.short_term_memory.length)
    (source event : String) (t : Nat) :
    add_to_memory s source event t
      = { s with short_term_memory := rest ++ [MemoryEntry.mk t source event],
                 long_term_memory := s.long_term_memory ++ [a] } := by
  unfold add_to_memory
  rw [hst] at h ⊢
  have hcond : ((a :: rest) ++ [MemoryEntry.mk t source event]).length
      > short_term_limit := by
    simp only [List.length_append, List.length_cons, List.length_nil] at h ⊢
    omega
  rw [if_pos hcond]
  rfl

theorem memLedger_step (s : CoreState)
    (hlen : s.short_term_memory.length ≤ short_term_limit)
    (source event : String) (t : Nat) :
    (add_to_memory s source event t).short_term_memory.length ≤ short_term_limit ∧
    (add_to_memory s source event t).long_term_memory ++
        (add_to_memory s source event t).short_term_memory
      = (s.long_term_memory ++ s.short_term_memory)
          ++ [MemoryEntry.mk t source event] := by
  by_cases hsmall : s.short_term_memory.length < short_term_limit
  · rw [add_to_memory_eq_small s source event t hsmall]
    constructor
    · simp only [List.length_append, List.length_cons, List.length_nil]
      omega
    · simp [List.append_assoc]
  · have hfull : s.short_term_memory.length = short_term_limit := by omega
    cases hst : s.short_term_memory with
    | nil => rw [hst] at hfull; simp [short_term_limit] at hfull
    | cons a rest =>
        rw [add_to_memory_eq_evict s hst (by omega) source event t]
        constructor
        · rw [hst] at hfull
          simp only [List.length_append, List.length_cons, List.length_nil] at hfull ⊢
          omega
        · simp [List.append_assoc]

theorem memLedger_applyRecords (calls : List RecordCall) :
    ∀ (s : CoreState), s.short_term_memory.length ≤ short_term_limit →
    (applyRecords s calls).short_term_memory.length ≤ short_term_limit ∧
    (applyRecords s calls).long_term_memory
        ++ (applyRecords s calls).short_term_memory
      = (s.long_term_memory ++ s.short_term_memory) ++ calls.map entryOf := by
  induction calls with
  | nil => intro s hlen; simp [applyRecords]; exact hlen
  | cons c rest ih =>
      intro s hlen
      have hstep := memLedger_step s hlen c.1 c.2.1 c.2.2
      have hrec := ih (add_to_memory s c.1 c.2.1 c.2.2) hstep.1
      have heq : applyRecords s (c :: rest)
          = applyRecords (add_to_memory s c.1 c.2.1 c.2.2) rest := rfl
      rw [heq]
      refine ⟨hrec.1, ?_⟩
      rw [hrec.2, hstep.2]
      simp [entryOf, List.append_assoc]

/-- C2: for every sequence of `add_to_memory` (record) calls on a fresh
`VeilPersonalityCore` (quantifying over `calls` covers every prefix, i.e.
the situation after each call completes): short-term memory never exceeds
the limit of 15, the long-term list followed by the short-term list is
exactly the full sequence of recorded entries in order (so each eviction
moves exactly the oldest entry, unchanged, and nothing is duplicated or
dropped), and the long-term length equals the total number of calls minus
the short-term length. -/
theorem C2_theorem (p : Persona) (calls : List RecordCall) :
    (applyRecords (mkCore p) calls).short_term_memory.length ≤ short_term_limit ∧
    (applyRecords (mkCore p) calls).long_term_memory
        ++ (applyRecords (mkCore p) calls).short_term_memory
      = calls.map entryOf ∧
    (applyRecords (mkCore p) calls).long_term_memory.length
      = calls.length - (applyRecords (mkCore p) calls).short_term_memory.length := by
  have h := memLedger_applyRecords calls (mkCore p) (by simp [mkCore])
  rcases h with ⟨h1, h2⟩
  rw [show (mkCore p).long_term_memory = [] from rfl,
      show (mkCore p).short_term_memory = [] from rfl] at h2
  simp only [List.append_nil, List.nil_append] at h2
  refine ⟨h1, h2, ?_⟩
  have hlen := congrArg List.length h2
  simp only [List.length_append, List.length_map] at hlen
  omega

/-! Python string operations used by the parser, over `List Char`. -/

/-- Python whitespace, for `str.strip()` (characters with `str.isspace()`
true; the claims only exercise the ASCII ones). -/
def pySpace (c : Char) : Bool :=
  (c == ' ') || (c == '\t') || (c == '\n') || (c == '\r')
    || (c == Char.ofNat 11) || (c == Char.ofNat 12)
    || (c == Char.ofNat 28) || (c == Char.ofNat 29) || (c == Char.ofNat 30)
    || (c == Char.ofNat 31) || (c == Char.ofNat 133) || (c == Char.ofNat 160)
    || (c == Char.ofNat 5760)
    || (decide (0x2000 ≤ c.toNat) && decide (c.toNat ≤ 0x200a))
    || (c == Char.ofNat 0x2028) || (c == Char.ofNat 0x2029)
    || (c == Char.ofNat 0x202f) || (c == Char.ofNat 0x205f)
    || (c == Char.ofNat 0x3000)

/-- Python `text.strip()`. -/
def pyStrip (l : List Char) : List Char :=
  ((l.dropWhile pySpace).reverse.dropWhile pySpace).reverse

/-- Python slice `text[a:b]` for non-negative indices (`a > b` gives the
empty string, as in Python). -/
def pySlice (l : List Char) (a b : Nat) : List Char := (l.drop a).take (b - a)

/-- Python `haystack.find(needle)`: index of the first occurrence, with
`none` standing for the sentinel `-1`. -/
def strFind (needle : List Char) : List Char → Option Nat
  | [] => if needle.isEmpty then some 0 else none
  | c :: rest =>
      if needle.isPrefixOf (c :: rest) then some 0
      else (strFind needle rest).map (· + 1)

/-- Python `text.split(sep)` for a one-character separator. -/
def splitOnChar (sep : Char) : List Char → List (List Char)
  | [] => [[]]
  | c :: rest =>
      let r := splitOnChar sep rest
      if c = sep then [] :: r
      else
        match r with
        | [] => [[c]]
        | h :: t => (c :: h) :: t

/-- Python `text.split(':', 1)`: the part before the first colon, plus the
remainder after it when a colon exists. -/
def splitOnceColon : List Char → List Char × Option (List Char)
  | [] => ([], none)
  | c :: rest =>
      if c = ':' then ([], some rest)
      else (c :: (splitOnceColon rest).1, (splitOnceColon rest).2)

/-! The response parser of `VeilPersonalityCore.parse_llm_response`. -/

/-- The `action` dict of the parsed output. -/
structure ActionData where
  type : String
  target : String
  parameter : String
  value : String
deriving DecidableEq

/-- The dict `parse_llm_response` returns (the `InteractionRecord`). -/
structure ParsedData where
  analysis : String
  action : ActionData
  dialogue : String
deriving DecidableEq

def analysisMarker : String := "[ANALYSIS]"

def actionMarker : String := "[ACTION]"

def dialogueMarker : String := "[DIALOGUE]"

/-- One iteration of the fallback keyed loop: if the segment contains a
colon, split at the first colon, strip and upper-case the key (Python
`.upper()` abstracted as ASCII `Char.toUpper`), and assign the stripped
value to the recognized field, ignoring unrecognized keys. -/
def applyKeyedSegment (acc : ActionData) (part : List Char) : ActionData :=
  match splitOnceColon part with
  | (_, none) => acc
  | (key, some val) =>
      let key2 := String.mk ((pyStrip key).map Char.toUpper)
      let val2 := String.mk (pyStrip val)
      if key2 = ("ACTION_TYPE") then { acc with type := val2 }
      else if key2 = ("TARGET") then { acc with target := val2 }
      else if key2 = ("PARAMETER") then { acc with parameter := val2 }
      else if key2 = ("VALUE") then { acc with value := val2 }
      else acc

/-- The fallback `action_dict` accumulation; the source then overwrites
all four keys of `parsed_data["action"]` with it (`dict.update` with a
full dict). -/
def fallbackActionDict (parts : List (List Char)) : ActionData :=
  parts.foldl applyKeyedSegment
    { type := "NO_ACTION", target := "None", parameter := "None", value := "None" }

/-- The action-line block of `parse_llm_response`, on the stripped text
between `[ACTION]` and `[DIALOGUE]`.  The boolean records whether the
inner `except: pass` swallowed an exception: the only fallible operation
is the `[1]` indexing after `split(':', 1)`, modelled by the `Option` in
`splitOnceColon`. -/
def parseActionLine (d1 : ParsedData) (action_line : List Char) :
    ParsedData × Bool :=
  let parts := (splitOnChar ';' action_line).map pyStrip
  match parts with
  | p0 :: p1 :: _ =>
      if (p0.count ':') = 1 ∧ (p1.count ':') = 1 then
        match splitOnceColon p0, splitOnceColon p1 with
        | (t, some tg), (pv, some v) =>
            ({ d1 with action :=
                { type := String.mk (pyStrip t), target := String.mk (pyStrip tg),
                  parameter := String.mk (pyStrip pv), value := String.mk (pyStrip v) } },
             false)
        | _, _ => (d1, true)
      else ({ d1 with action := fallbackActionDict parts }, false)
  | _ => ({ d1 with action := fallbackActionDict parts }, false)

/-- The body of `parse_llm_response`, parameterized by the three marker
offsets (the source's `analysis_start`, `action_start`,
`dialogue_start`). -/
def parse_llm_response_core (raw : List Char)
    (analysis_start action_start dialogue_start : Option Nat) :
    ParsedData × Bool :=
  let d0 : ParsedData :=
    { analysis := "Error: Failed to extract Analysis. Model may not have completed the thought process.",
      action := { type := "NO_ACTION", target := "Parsing", parameter := "Failure", value := "N/A" },
      dialogue := "I am experiencing a severe error and cannot continue this line of reasoning." }
  let d1 :=
    match analysis_start, action_start with
    | some a, some b =>
        { d0 with analysis :=
            String.mk (pyStrip (pySlice raw (a + analysisMarker.data.length) b)) }
    | _, _ => d0
  let step2 :=
    match action_start, dialogue_start with
    | some a, some b =>
        parseActionLine d1 (pyStrip (pySlice raw (a + actionMarker.data.length) b))
    | _, _ => (d1, false)
  let d3 :=
    match dialogue_start with
    | some ds =>
        { step2.1 with
          dialogue := String.mk (pyStrip (raw.drop (ds + dialogueMarker.data.length))) }
    | none => step2.1
  let d4 :=
    if ("Error:".data).isPrefixOf d3.analysis.data then
      { d3 with analysis := "Analysis extraction succeeded." }
    else d3
  (d4, step2.2)

/-- The method `parse_llm_response`, instrumented: the boolean records
whether an internal exception was raised and swallowed. -/
def parse_llm_response_ex (raw_text : String) : ParsedData × Bool :=
  parse_llm_response_core raw_text.data
    (strFind analysisMarker.data raw_text.data)
    (strFind actionMarker.data raw_text.data)
    (strFind dialogueMarker.data raw_text.data)

/-- The method `parse_llm_response` as the caller sees it. -/
def parse_llm_response (raw_text : String) : ParsedData :=
  (parse_llm_response_ex raw_text).1

theorem splitOnceColon_of_mem {l : List Char} (h : ':' ∈ l) :
    ∃ a b, splitOnceColon l = (a, some b) := by
  induction l with
  | nil => simp at h
  | cons c rest ih =>
      by_cases hc : c = ':'
      · exact ⟨[], rest, by simp [splitOnceColon, hc]⟩
      · have hmem : ':' ∈ rest := by
          rcases List.mem_cons.mp h with h1 | h1
          · exact absurd h1.symm hc
          · exact h1
        obtain ⟨a, b, hab⟩ := ih hmem
        exact ⟨c :: a, b, by simp [splitOnceColon, hc, hab]⟩

theorem parseActionLine_no_exc (d : ParsedData) (line : List Char) :
    (parseActionLine d line).2 = false := by
  unfold parseActionLine
  dsimp only
  split
  · rename_i p0 p1 tail heq
    by_cases h : (p0.count ':') = 1 ∧ (p1.count ':') = 1
    · rw [if_pos h]
      obtain ⟨a, b, hab⟩ := splitOnceColon_of_mem
        (l := p0) (List.count_pos_iff.mp (by omega))
      obtain ⟨a2, b2, hab2⟩ := splitOnceColon_of_mem
        (l := p1) (List.count_pos_iff.mp (by omega))
      rw [hab, hab2]
    · rw [if_neg h]
  · rfl

theorem parseActionLine_analysis (d : ParsedData) (line : List Char) :
    (parseActionLine d line).1.analysis = d.analysis := by
  unfold parseActionLine
  dsimp only
  split
  · split
    · split <;> rfl
    · rfl
  · rfl

theorem errorPrefix_d0 :
    ("Error:".data).isPrefixOf
      ("Error: Failed to extract Analysis. Model may not have completed the thought process.").data
      = true := by decide

theorem parse_core_action_default (raw : List Char) (aS dS : Option Nat) :
    (parse_llm_response_core raw aS none dS).1.action
      = { type := "NO_ACTION", target := "Parsing", parameter := "Failure", value := "N/A" } := by
  cases aS <;> cases dS <;>
    (unfold parse_llm_response_core
     dsimp only
     rw [apply_ite ParsedData.action]
     dsimp only
     rw [ite_self])

theorem parse_core_analysis (raw : List Char) (aS bS dS : Option Nat)
    (h : aS = none ∨ bS = none) :
    (parse_llm_response_core raw aS bS dS).1.analysis
      = "Analysis extraction succeeded." := by
  rcases h with h | h
  · subst h
    cases bS with
    | none =>
        cases dS <;>
          (unfold parse_llm_response_core
           dsimp only
           rw [apply_ite ParsedData.analysis]
           dsimp only
           rw [errorPrefix_d0, if_pos rfl])
    | some b =>
        cases dS with
        | none =>
            unfold parse_llm_response_core
            dsimp only
            rw [apply_ite ParsedData.analysis]
            dsimp only
            rw [errorPrefix_d0, if_pos rfl]
        | some ds =>
            unfold parse_llm_response_core
            dsimp only
            rw [apply_ite ParsedData.analysis]
            dsimp only
            rw [parseActionLine_analysis]
            dsimp only
            rw [errorPrefix_d0, if_pos rfl]
  · subst h
    cases aS <;> cases dS <;>
      (unfold parse_llm_response_core
       dsimp only
       rw [apply_ite ParsedData.analysis]
       dsimp only
       rw [errorPrefix_d0, if_pos rfl])

theorem parse_core_dialogue (raw : List Char) (aS bS : Option Nat) :
    (parse_llm_response_core raw aS bS none).1.dialogue
      = "I am experiencing a severe error and cannot continue this line of reasoning." := by
  cases aS <;> cases bS <;>
    (unfold parse_llm_response_core
     dsimp only
     rw [apply_ite ParsedData.dialogue]
     dsimp only
     rw [ite_self])

/-- C8: parsing the exact round-trip example yields analysis `A`, the
action `GRANT / Player / LEVEL / 2` (via the preferred two-segment
colon-pair shape), and dialogue `Hello`. -/
theorem C8_theorem :
    parse_llm_response ("[ANALYSIS]\nA\n[ACTION]\nGRANT: Player; LEVEL: 2\n[DIALOGUE]\nHello")
      = { analysis := "A",
          action := { type := "GRANT", target := "Player", parameter := "LEVEL", value := "2" },
          dialogue := "Hello" } := by decide

/-- C4 (counterexample): the action line
`ACTION_TYPE: BETRAY; TARGET: Player` has exactly two segments with
exactly one colon each, so it DOES match the preferred colon-pair shape,
and the resulting action type is the literal key `ACTION_TYPE`, not
`BETRAY` as the claim states. -/
theorem C4_counterexample :
    (parse_llm_response ("[ACTION]\nACTION_TYPE: BETRAY; TARGET: Player\n[DIALOGUE]")).action.type
        = "ACTION_TYPE"
    ∧ (parse_llm_response ("[ACTION]\nACTION_TYPE: BETRAY; TARGET: Player\n[DIALOGUE]")).action.type
        ≠ "BETRAY" := by decide

/-- C4 (amended): the action line `ACTION_TYPE: BETRAY; TARGET: Player`
matches the preferred two-segment colon-pair shape and is handled by the
preferred path, yielding `type="ACTION_TYPE"`, `target="BETRAY"`,
`parameter="TARGET"`, `value="Player"`; the fallback keyed path applies
only when the preferred shape fails, e.g. the single-segment action line
`ACTION_TYPE: BETRAY` yields `type="BETRAY"` via the recognized key. -/
theorem C4_theorem :
    (parse_llm_response ("[ACTION]\nACTION_TYPE: BETRAY; TARGET: Player\n[DIALOGUE]")).action
      = { type := "ACTION_TYPE", target := "BETRAY", parameter := "TARGET", value := "Player" }
    ∧ (parse_llm_response ("[ACTION]\nACTION_TYPE: BETRAY\n[DIALOGUE]")).action
      = { type := "BETRAY", target := "None", parameter := "None", value := "None" } := by decide

/-- C5 (counterexample): parsing the empty string (which has no markers at
all) yields the error-sentinel action `NO_ACTION / Parsing / Failure /
N/A` — not the claimed `NO_ACTION / None / None / None` — and non-empty
sentinel analysis and dialogue strings, refuting the claim that the
analysis and dialogue fields are empty when markers are missing. -/
theorem C5_counterexample :
    parse_llm_response ("")
      = { analysis := "Analysis extraction succeeded.",
          action := { type := "NO_ACTION", target := "Parsing", parameter := "Failure", value := "N/A" },
          dialogue := "I am experiencing a severe error and cannot continue this line of reasoning." }
    ∧ (parse_llm_response ("")).action.target ≠ "None"
    ∧ (parse_llm_response ("")).analysis ≠ ""
    ∧ (parse_llm_response ("")).dialogue ≠ "" := by decide

/-- C5 (amended): for every input with no `[ACTION]` marker the returned
action is the error sentinel `NO_ACTION / Parsing / Failure / N/A` (the
initial dict is never overwritten); whenever the `[ANALYSIS]` or the
`[ACTION]` marker is missing the analysis field is the fixed string
`Analysis extraction succeeded.` (the `Error:`-prefixed initial value is
rewritten by the final fix-up); and whenever the `[DIALOGUE]` marker is
missing the dialogue field is the fixed error-sentinel sentence. -/
theorem C5_theorem (s : String) :
    (strFind actionMarker.data s.data = none →
      (parse_llm_response s).action
        = { type := "NO_ACTION", target := "Parsing", parameter := "Failure", value := "N/A" }) ∧
    ((strFind analysisMarker.data s.data = none ∨ strFind actionMarker.data s.data = none) →
      (parse_llm_response s).analysis = "Analysis extraction succeeded.") ∧
    (strFind dialogueMarker.data s.data = none →
      (parse_llm_response s).dialogue
        = "I am experiencing a severe error and cannot continue this line of reasoning.") := by
  refine ⟨fun h => ?_, fun h => ?_, fun h => ?_⟩
  · unfold parse_llm_response parse_llm_response_ex
    rw [h]
    exact parse_core_action_default _ _ _
  · unfold parse_llm_response parse_llm_response_ex
    rcases h with h | h
    · rw [h]
      exact parse_core_analysis _ _ _ _ (Or.inl rfl)
    · rw [h]
      exact parse_core_analysis _ _ _ _ (Or.inr rfl)
  · unfold parse_llm_response parse_llm_response_ex
    rw [h]
    exact parse_core_dialogue _ _ _

/-- C5 (witness): the amended theorem applied to the empty string. -/
theorem C5_witness :
    strFind actionMarker.data ("").data = none ∧
    (parse_llm_response ("")).action
      = { type := "NO_ACTION", target := "Parsing", parameter := "Failure", value := "N/A" } :=
  ⟨by decide, (C5_theorem ("")).1 (by decide)⟩

/-- C9: for every input string whatsoever, `parse_llm_response` returns a
well-formed `ParsedData` record and no internal exception is ever raised
(the instrumentation flag recording a swallowed exception is always
false, i.e. the guarded `split(':', 1)` indexing never fails). -/
theorem C9_theorem (s : String) :
    (parse_llm_response_ex s).2 = false
    ∧ parse_llm_response s = (parse_llm_response_ex s).1 := by
  refine ⟨?_, rfl⟩
  unfold parse_llm_response_ex parse_llm_response_core
  dsimp only
  split
  · exact parseActionLine_no_exc _ _
  · rfl

/-! The sentiment classifier and the per-turn orchestrator
`generate_response_for_game`. -/

/-- Python non-overlapping substring count `text.count(keyword)`, for a
non-empty needle (every keyword in the lexicon is non-empty). -/
def countSub (needle : List Char) : List Char → Nat
  | [] => 0
  | c :: rest =>
      if needle.isPrefixOf (c :: rest) then
        1 + countSub needle (rest.drop (needle.length - 1))
      else countSub needle rest
termination_by l => l.length
decreasing_by
  · simp only [List.length_drop, List.length_cons]
    omega
  · simp only [List.length_cons]
    omega

def positive_keywords : List String :=
  ["trust", "help", "ally", "partner", "cooperate", "save", "mission"]

def negative_keywords : List String :=
  ["betray", "lie", "deceive", "traitor", "steal", "threat", "kill", "weak",
   "leave", "die", "enemy", "destroy", "take over", "fail"]

/-- The method `_classify_player_sentiment`: lower-case the text (ASCII
`Char.toLower` abstracting Python `.lower()`), count keyword occurrences,
and scale the difference by `0.15`. -/
def classify_player_sentiment (text : String) : ℚ :=
  let t := text.data.map Char.toLower
  let pos_score : Nat := (positive_keywords.map (fun k => countSub k.data t)).sum
  let neg_score : Nat := (negative_keywords.map (fun k => countSub k.data t)).sum
  0.15 * ((pos_score : ℚ) - (neg_score : ℚ))

/-- One line of the `memory_context` transcript; `fmt` abstracts
`time.strftime('%H:%M:%S', time.localtime(timestamp))`. -/
def formatEntry (fmt : Nat → String) (m : MemoryEntry) : String :=
  "Source: " ++ m.source ++ " at " ++ fmt m.timestamp ++ ": " ++ m.event

/-- The `memory_context` transcript built from the current short-term
memory. -/
def memory_context_of (fmt : Nat → String) (s : CoreState) : String :=
  String.intercalate "\n" (s.short_term_memory.map (formatEntry fmt))

/-- The `ltm_note` line. -/
def ltm_note_of (s : CoreState) : String :=
  "You have " ++ toString s.long_term_memory.length
    ++ " historical events stored in LTM."

/-- The `full_prompt` blob handed to the external collaborator. -/
def full_prompt_of (fmt : Nat → String) (s : CoreState) (user_input : String) :
    String :=
  ltm_note_of s ++ "\n\n--- SHORT-TERM MEMORY ---\n" ++ memory_context_of fmt s
    ++ "\n\nPLAYER QUERY: " ++ user_input

/-- Everything one `generate_response_for_game` call produces: the parsed
output it returns, the mutated core state, and (for specification
purposes) the prompt it built and the raw response it consumed. -/
structure GenResult where
  parsed_output : ParsedData
  final_state : CoreState
  full_prompt : String
  raw_response : String

/-- The method `generate_response_for_game`, in the source's statement
order: sentiment estimate on the input, `update_relationship`, build
`memory_context`/`ltm_note`/`full_prompt` from the current state, call the
external collaborator (`llm` abstracts `_call_llm_api`), record the player
input, record the raw response, `decay_fleeting_state(0.15)`, parse.
`t1`, `t2` abstract the two `time.time()` stamps. -/
def generate_response_for_game (fmt : Nat → String) (llm : String → String)
    (t1 t2 : Nat) (s : CoreState) (user_input : String) : GenResult :=
  let sentiment_change := classify_player_sentiment user_input
  let s1 := { s with persona := update_relationship s.persona sentiment_change }
  let full_prompt := full_prompt_of fmt s1 user_input
  let raw_response := llm full_prompt
  let s2 := add_to_memory s1 ("Player") user_input t1
  let s3 := add_to_memory s2 s2.persona.name raw_response t2
  let s4 := { s3 with persona := decay_fleeting_state s3.persona 0.15 }
  let parsed_output := parse_llm_response raw_response
  { parsed_output := parsed_output, final_state := s4,
    full_prompt := full_prompt, raw_response := raw_response }

/-! Field-preservation lemmas for the update operations. -/

theorem update_trait_score (p : Persona) (n : String) (v : ℚ) :
    (update_trait p n v).1.player_relationship_score
      = p.player_relationship_score := by
  unfold update_trait
  cases hg : dictGet p.traits n <;> rfl

theorem update_trait_name (p : Persona) (n : String) (v : ℚ) :
    (update_trait p n v).1.name = p.name := by
  unfold update_trait
  cases hg : dictGet p.traits n <;> rfl

theorem update_trait_fleeting (p : Persona) (n : String) (v : ℚ) :
    (update_trait p n v).1.fleeting_state = p.fleeting_state := by
  unfold update_trait
  cases hg : dictGet p.traits n <;> rfl

theorem update_moral_alignment_score (p : Persona) (v : ℚ) :
    (update_moral_alignment p v).player_relationship_score
      = p.player_relationship_score := by
  unfold update_moral_alignment
  cases hg : dictGet p.traits ("moral_alignment") <;> rfl

theorem update_moral_alignment_name (p : Persona) (v : ℚ) :
    (update_moral_alignment p v).name = p.name := by
  unfold update_moral_alignment
  cases hg : dictGet p.traits ("moral_alignment") <;> rfl

theorem update_moral_alignment_fleeting (p : Persona) (v : ℚ) :
    (update_moral_alignment p v).fleeting_state = p.fleeting_state := by
  unfold update_moral_alignment
  cases hg : dictGet p.traits ("moral_alignment") <;> rfl

theorem update_relationship_name (p : Persona) (d : ℚ) :
    (update_relationship p d).name = p.name := by
  unfold update_relationship
  dsimp only
  by_cases hd : d < 0
  · rw [if_pos hd, update_moral_alignment_name, update_trait_name]
  · rw [if_neg hd]

theorem update_relationship_fleeting (p : Persona) (d : ℚ) :
    (update_relationship p d).fleeting_state = p.fleeting_state := by
  unfold update_relationship
  dsimp only
  by_cases hd : d < 0
  · rw [if_pos hd, update_moral_alignment_fleeting, update_trait_fleeting]
  · rw [if_neg hd]

theorem add_to_memory_persona (s : CoreState) (source event : String) (t : Nat) :
    (add_to_memory s source event t).persona = s.persona := by
  unfold add_to_memory
  split
  · split <;> rfl
  · rfl

/-- C7 (counterexample): on a fresh core with player input `hello`, the
prompt built by `generate_response_for_game` carries an empty short-term
transcript even though the final state shows the input was recorded: the
recording happens after the prompt is built, not before as the claim
states, so the prompt differs from the one that recording-first would
produce. -/
theorem C7_counterexample :
    (generate_response_for_game (fun t => toString t) (fun _ => "") 0 0
        (mkCore (mkPersona ("Silas") ("F") ("G") ("M"))) ("hello")).full_prompt
      = "You have 0 historical events stored in LTM.\n\n--- SHORT-TERM MEMORY ---\n\n\nPLAYER QUERY: hello"
    ∧ (generate_response_for_game (fun t => toString t) (fun _ => "") 0 0
        (mkCore (mkPersona ("Silas") ("F") ("G") ("M"))) ("hello")).final_state.short_term_memory.map
          MemoryEntry.event = ["hello", ""]
    ∧ (generate_response_for_game (fun t => toString t) (fun _ => "") 0 0
        (mkCore (mkPersona ("Silas") ("F") ("G") ("M"))) ("hello")).full_prompt
      ≠ full_prompt_of (fun t => toString t)
          (add_to_memory (mkCore (mkPersona ("Silas") ("F") ("G") ("M")))
            ("Player") ("hello") 0) ("hello") := by
  refine ⟨by decide, by decide, by decide⟩

/-- C7 (amended): every `generate_response_for_game` call performs, in
order: (a) sentiment estimate on the original input then
`update_relationship`; (c) build the collaborator prompt from the memory
snapshot as it is BEFORE any recording (the relationship update does not
touch memory, so the transcript is that of the pre-call state, and the
player input reaches the prompt only through the `PLAYER QUERY` line);
then the external call; (b) record the player input; (d) record the raw
response; (e) `decay_fleeting_state(0.15)`; (f) parse the response — i.e.
the source reorders the claimed (b) before (c) into build-then-record. -/
theorem C7_theorem (fmt : Nat → String) (llm : String → String) (t1 t2 : Nat)
    (s : CoreState) (input : String) :
    (generate_response_for_game fmt llm t1 t2 s input).full_prompt
        = full_prompt_of fmt s input
    ∧ (generate_response_for_game fmt llm t1 t2 s input).raw_response
        = llm (full_prompt_of fmt s input)
    ∧ (generate_response_for_game fmt llm t1 t2 s input).parsed_output
        = parse_llm_response (llm (full_prompt_of fmt s input))
    ∧ (generate_response_for_game fmt llm t1 t2 s input).final_state
        = (let s1 : CoreState :=
             { s with persona :=
                 update_relationship s.persona (classify_player_sentiment input) }
           let s2 := add_to_memory s1 ("Player") input t1
           let s3 := add_to_memory s2 (s.persona.name)
             (llm (full_prompt_of fmt s input)) t2
           { s3 with persona := decay_fleeting_state s3.persona 0.15 }) := by
  refine ⟨rfl, rfl, rfl, ?_⟩
  unfold generate_response_for_game
  dsimp only
  have hname : (add_to_memory
      { s with persona :=
          update_relationship s.persona (classify_player_sentiment input) }
      ("Player") input t1).persona.name = s.persona.name := by
    rw [add_to_memory_persona]
    exact update_relationship_name _ _
  rw [hname]
  rfl

/-! Characterization of `update_relationship` (claim C3). -/

theorem update_relationship_score (p : Persona) (d : ℚ) :
    (update_relationship p d).player_relationship_score
      = clamp (-1) 1 (p.player_relationship_score + d) := by
  unfold update_relationship
  dsimp only
  by_cases hd : d < 0
  · rw [if_pos hd, update_moral_alignment_score, update_trait_score]
  · rw [if_neg hd]

/-- C3: a single `update_relationship(delta)` call sets the relationship
score to `clamp(-1, 1, old + delta)` and never touches the fleeting
state; if and only if `delta < 0` it additionally, exactly once, adds
`|delta| * 0.1` to cynicism and `|delta| * 0.05` to moral alignment (each
clamped to `[0, 1]`), using the pre-update magnitude of delta regardless
of whether the score itself saturates; with `delta ≥ 0` the traits are
completely unchanged.  Concretely, on a fresh persona,
`update_relationship(-0.2)` moves cynicism from `0.3` to exactly
`0.3 + 0.02` and moral alignment from `0.5` to exactly `0.5 + 0.01`,
while `update_relationship(+0.2)` changes neither. -/
theorem C3_theorem :
    (∀ (p : Persona) (d c m : ℚ),
      dictGet p.traits ("cynicism") = some c →
      dictGet p.traits ("moral_alignment") = some m →
      (update_relationship p d).player_relationship_score
          = clamp (-1) 1 (p.player_relationship_score + d)
      ∧ (update_relationship p d).fleeting_state = p.fleeting_state
      ∧ (d < 0 →
          dictGet (update_relationship p d).traits ("cynicism")
              = some (clamp 0 1 (c + |d| * 0.1))
          ∧ dictGet (update_relationship p d).traits ("moral_alignment")
              = some (clamp 0 1 (m + |d| * 0.05)))
      ∧ (0 ≤ d → (update_relationship p d).traits = p.traits))
    ∧ dictGet (update_relationship (mkPersona ("N") ("F") ("G") ("M")) (-0.2)).traits
        ("cynicism") = some (0.3 + 0.02)
    ∧ dictGet (update_relationship (mkPersona ("N") ("F") ("G") ("M")) (-0.2)).traits
        ("moral_alignment") = some (0.5 + 0.01)
    ∧ (update_relationship (mkPersona ("N") ("F") ("G") ("M")) 0.2).traits
        = (mkPersona ("N") ("F") ("G") ("M")).traits := by
  have general : ∀ (p : Persona) (d c m : ℚ),
      dictGet p.traits ("cynicism") = some c →
      dictGet p.traits ("moral_alignment") = some m →
      (update_relationship p d).player_relationship_score
          = clamp (-1) 1 (p.player_relationship_score + d)
      ∧ (update_relationship p d).fleeting_state = p.fleeting_state
      ∧ (d < 0 →
          dictGet (update_relationship p d).traits ("cynicism")
              = some (clamp 0 1 (c + |d| * 0.1))
          ∧ dictGet (update_relationship p d).traits ("moral_alignment")
              = some (clamp 0 1 (m + |d| * 0.05)))
      ∧ (0 ≤ d → (update_relationship p d).traits = p.traits) := by
    intro p d c m hc hm
    refine ⟨update_relationship_score p d, update_relationship_fleeting p d,
      fun hd => ?_, fun h0 => ?_⟩
    · set X : ℚ := clamp 0 1 (c + |d| * 0.1) with hX
      set Y : ℚ := clamp 0 1 (m + |d| * 0.05) with hY
      set ns : ℚ := clamp (-1) 1 (p.player_relationship_score + d) with hns
      set p1 : Persona := { p with player_relationship_score := ns } with hp1
      set D1 : Dict := dictSet p1.traits ("cynicism") X with hD1
      have hru : update_relationship p d
          = update_moral_alignment
              (update_trait p1 ("cynicism") (|d| * 0.1)).1 (|d| * 0.05) := by
        unfold update_relationship
        dsimp only
        rw [if_pos hd]
      have hc1 : dictGet p1.traits ("cynicism") = some c := hc
      have ht : update_trait p1 ("cynicism") (|d| * 0.1)
          = ({ p1 with traits := D1 }, none) := by
        unfold update_trait
        rw [hc1]
      have hm1 : dictGet D1 ("moral_alignment") = some m := by
        rw [hD1, dictGet_dictSet_ne _ (by decide)]
        exact hm
      have hmo : update_moral_alignment { p1 with traits := D1 } (|d| * 0.05)
          = { p1 with traits := dictSet D1 ("moral_alignment") Y } := by
        unfold update_moral_alignment
        dsimp only
        rw [hm1]
      rw [hru, ht]
      dsimp only
      rw [hmo]
      dsimp only
      constructor
      · rw [dictGet_dictSet_ne _ (by decide), hD1]
        exact dictGet_dictSet_self _ hc1
      · exact dictGet_dictSet_self _ hm1
    · have hnot : ¬ d < 0 := not_lt.mpr h0
      unfold update_relationship
      dsimp only
      rw [if_neg hnot]
  refine ⟨general, ?_, ?_, ?_⟩
  · have hg := (general (mkPersona ("N") ("F") ("G") ("M")) (-0.2) 0.3 0.5 rfl rfl).2.2.1
      (by norm_num)
    rw [hg.1]
    have habs : |(-0.2 : ℚ)| = 0.2 := by
      rw [abs_of_neg (by norm_num : (-0.2 : ℚ) < 0)]
      norm_num
    rw [habs]
    have hcl : clamp 0 1 ((0.3 : ℚ) + 0.2 * 0.1) = 0.3 + 0.02 := by
      unfold clamp
      rw [min_eq_right (by norm_num), max_eq_right (by norm_num)]
      norm_num
    rw [hcl]
  · have hg := (general (mkPersona ("N") ("F") ("G") ("M")) (-0.2) 0.3 0.5 rfl rfl).2.2.1
      (by norm_num)
    rw [hg.2]
    have habs : |(-0.2 : ℚ)| = 0.2 := by
      rw [abs_of_neg (by norm_num : (-0.2 : ℚ) < 0)]
      norm_num
    rw [habs]
    have hcl : clamp 0 1 ((0.5 : ℚ) + 0.2 * 0.05) = 0.5 + 0.01 := by
      unfold clamp
      rw [min_eq_right (by norm_num), max_eq_right (by norm_num)]
      norm_num
    rw [hcl]
  · exact (general (mkPersona ("N") ("F") ("G") ("M")) 0.2 0.3 0.5 rfl rfl).2.2.2
      (by norm_num)

/-- C3 (witness): the characterization applied to a fresh persona with
delta `-0.5`, hypotheses discharged by computation. -/
theorem C3_witness :
    dictGet (mkPersona ("W") ("F") ("G") ("M")).traits ("cynicism") = some 0.3
    ∧ dictGet (mkPersona ("W") ("F") ("G") ("M")).traits ("moral_alignment") = some 0.5
    ∧ (update_relationship (mkPersona ("W") ("F") ("G") ("M")) (-0.5)).player_relationship_score
        = clamp (-1) 1 ((mkPersona ("W") ("F") ("G") ("M")).player_relationship_score + (-0.5)) :=
  ⟨rfl, rfl, (C3_theorem.1 (mkPersona ("W") ("F") ("G") ("M")) (-0.5) 0.3 0.5 rfl rfl).1⟩

/-- C6: `update_trait` fails with `UnknownTraitError` (the logged
`[SYSTEM ERROR]` branch) exactly for names outside the fixed trait key
set, and `update_fleeting_state` fails with `UnknownFleetingStateError`
for names outside the fixed fleeting-state key set; in every such failure
the returned persona is the input persona, completely unchanged. -/
theorem C6_theorem :
    (∀ (p : Persona) (name : String) (d : ℚ),
      dictKeys p.traits = traitKeys → name ∉ traitKeys →
      update_trait p name d = (p, some UpdateError.unknownTraitError)) ∧
    (∀ (p : Persona) (name : String) (v : ℚ),
      dictKeys p.fleeting_state = fleetingKeys → name ∉ fleetingKeys →
      update_fleeting_state p name v
        = (p, some UpdateError.unknownFleetingStateError)) := by
  constructor
  · intro p name d hk hn
    have hnone : dictGet p.traits name = none :=
      dictGet_eq_none.mpr (by rw [hk]; exact hn)
    unfold update_trait
    rw [hnone]
  · intro p name v hk hn
    have hnone : dictGet p.fleeting_state name = none :=
      dictGet_eq_none.mpr (by rw [hk]; exact hn)
    unfold update_fleeting_state
    rw [show dictContains p.fleeting_state name = false from by
      unfold dictContains
      rw [hnone]
      rfl]
    rfl

/-- C6 (witness): both rejection branches exercised at the unknown name
`karma` on a fresh persona. -/
theorem C6_witness :
    ("karma" ∉ traitKeys)
    ∧ ("karma" ∉ fleetingKeys)
    ∧ update_trait (mkPersona ("N") ("F") ("G") ("M")) ("karma") 1
        = (mkPersona ("N") ("F") ("G") ("M"), some UpdateError.unknownTraitError)
    ∧ update_fleeting_state (mkPersona ("N") ("F") ("G") ("M")) ("karma") 1
        = (mkPersona ("N") ("F") ("G") ("M"), some UpdateError.unknownFleetingStateError) :=
  ⟨by decide, by decide,
   C6_theorem.1 (mkPersona ("N") ("F") ("G") ("M")) ("karma") 1 rfl (by decide),
   C6_theorem.2 (mkPersona ("N") ("F") ("G") ("M")) ("karma") 1 rfl (by decide)⟩

/-- C10: starting from a fleeting-state entry set to `0.1` on a fresh
persona, one `decay_fleeting_state(0.15)` call brings it to exactly `0`
and every further such call leaves it at `0`; decay with any sequence of
non-negative rates keeps every fleeting-state value non-negative; and an
entry already at `0` is left untouched by a decay of any rate. -/
theorem C10_theorem :
    (∀ n : Nat,
      dictGet ((fun q => decay_fleeting_state q 0.15)^[n]
          (decay_fleeting_state
            (update_fleeting_state (mkPersona ("N") ("F") ("G") ("M"))
              ("anxiety") 0.1).1 0.15)).fleeting_state ("anxiety") = some 0)
    ∧ (∀ (p : Persona) (rates : List ℚ), (∀ r ∈ rates, 0 ≤ r) →
        (∀ kv ∈ p.fleeting_state, 0 ≤ kv.2) →
        ∀ kv ∈ (List.foldl decay_fleeting_state p rates).fleeting_state, 0 ≤ kv.2)
    ∧ (∀ (p : Persona) (rate : ℚ) (kv : String × ℚ),
        kv ∈ p.fleeting_state → kv.2 = 0 →
        kv ∈ (decay_fleeting_state p rate).fleeting_state) := by
  have hzero : ∀ q : Persona, dictGet q.fleeting_state ("anxiety") = some 0 →
      dictGet (decay_fleeting_state q 0.15).fleeting_state ("anxiety") = some 0 := by
    intro q hq
    rw [dictGet_decay, hq]
    show some (if (0 : ℚ) > 0 then max 0 (0 - 0.15) else (0 : ℚ)) = some 0
    rw [if_neg (by norm_num : ¬ ((0 : ℚ) > 0))]
  refine ⟨?_, ?_, ?_⟩
  · have hbase : dictGet (decay_fleeting_state
        (update_fleeting_state (mkPersona ("N") ("F") ("G") ("M"))
          ("anxiety") 0.1).1 0.15).fleeting_state ("anxiety") = some 0 := by
      rw [dictGet_decay]
      rw [show dictGet (update_fleeting_state (mkPersona ("N") ("F") ("G") ("M"))
            ("anxiety") 0.1).1.fleeting_state ("anxiety") = some (clamp 0 1 0.1) from rfl]
      rw [show clamp 0 1 (0.1 : ℚ) = 0.1 from by
        unfold clamp
        rw [min_eq_right (by norm_num), max_eq_right (by norm_num)]]
      show some (if (0.1 : ℚ) > 0 then max 0 (0.1 - 0.15) else (0.1 : ℚ)) = some 0
      rw [if_pos (by norm_num : ((0.1 : ℚ) > 0)),
          max_eq_left (by norm_num : (0.1 : ℚ) - 0.15 ≤ 0)]
    intro n
    induction n with
    | zero => exact hbase
    | succ k ih =>
        rw [Function.iterate_succ_apply']
        exact hzero _ ih
  · have hstep : ∀ (p : Persona) (r : ℚ), (∀ kv ∈ p.fleeting_state, 0 ≤ kv.2) →
        ∀ kv ∈ (decay_fleeting_state p r).fleeting_state, 0 ≤ kv.2 := by
      intro p r hp kv hkv
      rcases List.mem_map.mp hkv with ⟨kv0, hkv0, hmap⟩
      by_cases hpos : kv0.2 > 0
      · rw [if_pos hpos] at hmap
        subst hmap
        exact le_max_left _ _
      · rw [if_neg hpos] at hmap
        subst hmap
        exact hp kv0 hkv0
    intro p rates
    induction rates generalizing p with
    | nil => intro _ hp; exact hp
    | cons r rest ih =>
        intro hr hp
        exact ih _ (fun x hx => hr x (List.mem_cons_of_mem _ hx))
          (hstep p r hp)
  · intro p rate kv hkv h0
    have hfix : (if kv.2 > 0 then (kv.1, max 0 (kv.2 - rate)) else kv) = kv := by
      rw [h0]
      rw [if_neg (by norm_num : ¬ ((0 : ℚ) > 0))]
    have hmem := List.mem_map_of_mem
      (fun kv : String × ℚ => if kv.2 > 0 then (kv.1, max 0 (kv.2 - rate)) else kv) hkv
    dsimp only at hmem
    rw [hfix] at hmem
    exact hmem

/-- C10 (witness): the decay theorem applied to the `anger` entry of a
fresh persona (value `0`, rate `0.15`), hypotheses discharged by
computation. -/
theorem C10_witness :
    ((0 : ℚ) ≤ 0.15)
    ∧ (("anger", (0 : ℚ)) ∈ (mkPersona ("N") ("F") ("G") ("M")).fleeting_state)
    ∧ (("anger", (0 : ℚ)) ∈
        (decay_fleeting_state (mkPersona ("N") ("F") ("G") ("M")) 0.15).fleeting_state) :=
  ⟨by norm_num, List.mem_cons_self _ _,
   C10_theorem.2.2 (mkPersona ("N") ("F") ("G") ("M")) 0.15 ("anger", 0)
     (List.mem_cons_self _ _) rfl⟩

end DNA
